import Mathlib

/-!
Verification of the atlas-core provenance ledger.

Shallow embedding of the core data model and operations of the
`atlas` repository (budgets, confidence evolution, event validation,
ledger reading, reducers, projection engine), together with theorems
settling the specification claims.

Conventions of the embedding:
* Python numbers (`float`/`int`) used only for exact arithmetic and
  comparisons are modelled as `ℚ`; the confidence engine, whose decay
  computes a real exponentiation `0.5 ** x`, is modelled over `ℝ` with
  `Real.rpow`.
* Python dictionaries are modelled as insertion-ordered association
  lists, matching CPython's ordered-dict semantics; lookups take the
  first matching key, updates rewrite an existing key in place and
  append a fresh key at the end.
* Stateful methods are modelled by explicit state passing: a Python
  method `obj.m(args)` mutating `obj` and returning `r` becomes a Lean
  function `m : State → Args → State × R`.  Wall-clock reads
  (`time.time()`, `datetime.utcnow()`) become explicit `now` arguments,
  and the event writer handed to the confidence engine is modelled by
  returning the list of events the call appends to it.
* Fallible operations (`json.loads`) are modelled with `Option`.
-/

mutual

/-- Model of a Python runtime value, as far as the atlas code inspects
one: strings, ints, floats, bools, `None`, lists and string-keyed
dicts.  Lists and dicts are separate inductives so that equality stays
decidable by structural recursion. -/
inductive PyVal where
  | str (s : String)
  | int (n : Int)
  | float (q : ℚ)
  | bool (b : Bool)
  | none
  | list (xs : PyList)
  | dict (es : PyFields)
deriving DecidableEq

/-- Model of a Python list of values. -/
inductive PyList where
  | nil
  | cons (v : PyVal) (tl : PyList)
deriving DecidableEq

/-- Model of a Python string-keyed dict: insertion-ordered key/value
entries. -/
inductive PyFields where
  | nil
  | cons (k : String) (v : PyVal) (tl : PyFields)
deriving DecidableEq

end

namespace PyList

/-- Python `len` of a list. -/
def length : PyList → Nat
  | .nil => 0
  | .cons _ tl => 1 + tl.length

/-- Conversion to a Lean list, for stating properties. -/
def toList : PyList → List PyVal
  | .nil => []
  | .cons v tl => v :: tl.toList

end PyList

/-- Build a dict value from a Lean association list (a shorthand used by
concrete events in the theorems). -/
def PyFields.ofList : List (String × PyVal) → PyFields
  | [] => .nil
  | (k, v) :: tl => .cons k v (PyFields.ofList tl)

namespace PyFields

/-- Python `d.get(k)` / `d[k]`: value of the first entry whose key
matches, if any. -/
def get : PyFields → String → Option PyVal
  | .nil, _ => Option.none
  | .cons k v tl, key => if k = key then Option.some v else tl.get key

/-- Python `d.get(k, default)`. -/
def getD (d : PyFields) (k : String) (default : PyVal) : PyVal :=
  (d.get k).getD default

/-- Python `k in d`. -/
def hasKey (d : PyFields) (k : String) : Bool :=
  (d.get k).isSome

end PyFields

/-- Python truthiness (`if v:`): `None`, `0`, `0.0`, `False`, `""`,
`[]` and `{}` are falsy, everything else truthy. -/
def PyVal.truthy : PyVal → Bool
  | .str s => !s.isEmpty
  | .int n => n != 0
  | .float q => decide (q ≠ 0)
  | .bool b => b
  | .none => false
  | .list .nil => false
  | .list (.cons _ _) => true
  | .dict .nil => false
  | .dict (.cons _ _ _) => true

/-- Python `len(v)` for container values (only ever reached on lists in
the embedded code; other cases raise `TypeError` in Python and are
unreachable in the embedded paths). -/
def PyVal.pyLen : PyVal → Nat
  | .list xs => xs.length
  | .str s => s.length
  | .dict es => match es with | .nil => 0 | .cons _ _ tl => 1 + (PyVal.dict tl).pyLen
  | _ => 0

section Budgets
/-! ## Source `src/atlas/budgets.py` -/

/-- Source `BudgetType`: types of budgets that can constrain
operations. -/
inductive BudgetType where
  | TIME
  | BYTES_READ
  | FILES_SCANNED
  | DEPTH
  | ITEMS
  | MEMORY
  | API_CALLS
deriving DecidableEq

/-- Source `BudgetLimit`: a single budget constraint. -/
structure BudgetLimit where
  budget_type : BudgetType
  limit : ℚ
  consumed : ℚ := 0
deriving DecidableEq

namespace BudgetLimit

/-- Source `BudgetLimit.remaining`: how much budget remains,
`max(0.0, limit - consumed)`. -/
def remaining (l : BudgetLimit) : ℚ := max 0 (l.limit - l.consumed)

/-- Source `BudgetLimit.exhausted`: whether the budget is fully
consumed, `consumed >= limit`. -/
def exhausted (l : BudgetLimit) : Bool := decide (l.limit ≤ l.consumed)

/-- Source `BudgetLimit.utilization`: fraction of budget consumed;
reports `1.0` for a zero limit. -/
def utilization (l : BudgetLimit) : ℚ :=
  if l.limit = 0 then 1 else l.consumed / l.limit

/-- Source `BudgetLimit.consume`: adds `amount` to `consumed` and
returns whether the post-consumption total is within the limit. -/
def consume (l : BudgetLimit) (amount : ℚ) : BudgetLimit × Bool :=
  let l' : BudgetLimit := { l with consumed := l.consumed + amount }
  (l', decide (l'.consumed ≤ l'.limit))

/-- Source `BudgetLimit.can_consume`: non-mutating look-ahead. -/
def can_consume (l : BudgetLimit) (amount : ℚ) : Bool :=
  decide (l.consumed + amount ≤ l.limit)

end BudgetLimit

/-- Source `Budget`: a collection of budget limits for one operation.
The `started_at`/`ended_at` wall-clock marks are rational instants. -/
structure Budget where
  limits : List (BudgetType × BudgetLimit) := []
  started_at : Option ℚ := Option.none
  ended_at : Option ℚ := Option.none
deriving DecidableEq

namespace Budget

/-- Dict lookup `self.limits[budget_type]` (also serves as the
`budget_type in self.limits` test via `Option.isSome`). -/
def getLimit (b : Budget) (t : BudgetType) : Option BudgetLimit :=
  (b.limits.find? (fun p => p.1 = t)).map Prod.snd

/-- In-place mutation of the `BudgetLimit` object stored under key `t`
(Python aliases the object inside the dict). -/
def setLimit (b : Budget) (t : BudgetType) (l : BudgetLimit) : Budget :=
  { b with limits := b.limits.map (fun p => if p.1 = t then (t, l) else p) }

/-- Source `Budget.elapsed_seconds` read at wall-clock instant `now`:
zero before `start()`, frozen at `ended_at` after `stop()`. -/
def elapsed_seconds (b : Budget) (now : ℚ) : ℚ :=
  match b.started_at with
  | Option.none => 0
  | Option.some s => (b.ended_at.getD now) - s

/-- Source `Budget.any_exhausted` at wall-clock instant `now`: the time
budget is checked against elapsed wall-clock time, and every limit is
checked against its consumed counter. -/
def any_exhausted (b : Budget) (now : ℚ) : Bool :=
  (match b.getLimit BudgetType.TIME with
   | Option.some tl => decide (tl.limit ≤ b.elapsed_seconds now)
   | Option.none => false)
  || b.limits.any (fun p => p.2.exhausted)

/-- Source `Budget.consume`: consume from a specific budget; a kind
with no limit entry is unlimited and reports `true` without mutating
anything. -/
def consume (b : Budget) (t : BudgetType) (amount : ℚ) : Budget × Bool :=
  match b.getLimit t with
  | Option.none => (b, true)
  | Option.some l =>
      let r := l.consume amount
      (b.setLimit t r.1, r.2)

/-- Source `Budget.can_consume`. -/
def can_consume (b : Budget) (t : BudgetType) (amount : ℚ) : Bool :=
  match b.getLimit t with
  | Option.none => true
  | Option.some l => l.can_consume amount

/-- Source `Budget.remaining`: remaining budget for a type, `none` when
unlimited; the time budget is measured against the wall clock. -/
def remaining (b : Budget) (t : BudgetType) (now : ℚ) : Option ℚ :=
  if t = BudgetType.TIME then
    match b.getLimit BudgetType.TIME with
    | Option.some l => Option.some (l.limit - b.elapsed_seconds now)
    | Option.none => Option.none
  else
    match b.getLimit t with
    | Option.none => Option.none
    | Option.some l => Option.some l.remaining

end Budget

end Budgets

section Confidence
/-! ## Source `src/atlas/confidence.py` (`ConfidenceEngine`)

The engine's scores are Python floats computed with `**`
(real exponentiation), so this section is modelled over `ℝ`.
`time.time()` becomes an explicit `now` argument.  The optional
`EventWriter` is modelled by the `hasWriter` flag together with the
list of events a call appends to the writer; the random
`uuid`-generated event id and the formatted human-readable reason
string are abstracted away (no claim mentions them). -/

/-- Payload of a `CONFIDENCE_UPDATED` event emitted by
`ConfidenceEngine._emit_confidence_updated`. -/
structure ConfEvent where
  artifact_id : String
  old_confidence : ℝ
  new_confidence : ℝ
  delta : ℝ

namespace ConfidenceEngine

/-- Source `ConfidenceEngine._emit_confidence_updated`: appends one
`CONFIDENCE_UPDATED` event when a writer is attached, nothing
otherwise. -/
noncomputable def emit_confidence_updated (hasWriter : Bool)
    (artifact_id : String) (old_confidence new_confidence : ℝ) :
    List ConfEvent :=
  if hasWriter then
    [{ artifact_id := artifact_id
       old_confidence := old_confidence
       new_confidence := new_confidence
       delta := new_confidence - old_confidence }]
  else []

/-- Source `ConfidenceEngine.reinforce`: asymptotic reinforcement
`new = min(1.0, old + (1 - old) * 0.1 / (1 + count * 0.5))`, always
emitting one audit event (when a writer is attached). -/
noncomputable def reinforce (hasWriter : Bool) (artifact_id : String)
    (current_confidence : ℝ) (recurring_proposal_count : ℕ) :
    ℝ × List ConfEvent :=
  let factor : ℝ := 0.1 / (1 + (recurring_proposal_count : ℝ) * 0.5)
  let boost : ℝ := (1.0 - current_confidence) * factor
  let new_confidence : ℝ := min 1.0 (current_confidence + boost)
  (new_confidence,
   emit_confidence_updated hasWriter artifact_id current_confidence new_confidence)

/-- Source `ConfidenceEngine.reduce_on_contradiction`:
`new = max(0.05, old - old * strength * 0.5)`, always emitting one
audit event (when a writer is attached). -/
noncomputable def reduce_on_contradiction (hasWriter : Bool)
    (artifact_id : String) (current_confidence : ℝ)
    (contradiction_strength : ℝ) : ℝ × List ConfEvent :=
  let reduction : ℝ := current_confidence * contradiction_strength * 0.5
  let new_confidence : ℝ := max 0.05 (current_confidence - reduction)
  (new_confidence,
   emit_confidence_updated hasWriter artifact_id current_confidence new_confidence)

/-- Source `ConfidenceEngine.apply_freshness_decay`: exponential
half-life decay of `current_confidence` for an artifact last observed
at `last_observed_ts`, evaluated at wall-clock `now`.  Skipped when the
age is non-positive; floored at `0.05`; a change smaller than `0.001`
is discarded and emits nothing. -/
noncomputable def apply_freshness_decay (hasWriter : Bool) (now : ℝ)
    (artifact_id : String) (current_confidence : ℝ)
    (last_observed_ts : ℝ) (volatility : ℝ) : ℝ × List ConfEvent :=
  let age_hours : ℝ := (now - last_observed_ts) / 3600
  if age_hours ≤ 0 then (current_confidence, [])
  else
    let half_life : ℝ := 720 - volatility * 696
    let decay_factor : ℝ := (0.5 : ℝ) ^ (age_hours / half_life)
    let new_confidence : ℝ := max 0.05 (current_confidence * decay_factor)
    if |new_confidence - current_confidence| < 0.001 then
      (current_confidence, [])
    else
      (new_confidence,
       emit_confidence_updated hasWriter artifact_id current_confidence
         new_confidence)

end ConfidenceEngine

end Confidence

section Validator
/-! ## Source `src/atlas/ledger/validator.py`

Events on this path are parsed JSON lines: dicts of `PyVal`s. -/

/-- Model of a Python class object appearing in the validator's
`isinstance` checks (`str`, `int`, `float`, `bool`, `dict`, `list`,
`type(None)`). -/
inductive PyTy where
  | str
  | int
  | float
  | bool
  | dict
  | list
  | noneT
deriving DecidableEq

/-- Python `isinstance(v, t)` for a single class.  Note CPython's
`bool` is a subclass of `int`, so a bool is an instance of `int`. -/
def pyIsInstance (v : PyVal) (t : PyTy) : Bool :=
  match v, t with
  | .str _, .str => true
  | .int _, .int => true
  | .float _, .float => true
  | .bool _, .bool => true
  | .bool _, .int => true
  | .none, .noneT => true
  | .list _, .list => true
  | .dict _, .dict => true
  | _, _ => false

/-- Python `isinstance(v, tuple_of_types)`. -/
def pyIsInstanceAny (v : PyVal) (ts : List PyTy) : Bool :=
  ts.any (fun t => pyIsInstance v t)

/-- Source `EventType` (the validator's string enum): the values of all
valid event types. -/
def knownEventTypes : List String :=
  ["ARTIFACT_SEEN", "FINGERPRINT_COMPUTED", "EXTRACTION_PERFORMED",
   "ACCESS_LIMITATION_NOTED", "REMOTE_LOOKUP_DECLINED",
   "TAGS_PROPOSED", "ROLES_PROPOSED", "RELATION_PROPOSED",
   "CONFLICT_DETECTED", "HYPOTHESIS_NOTED",
   "CONFIDENCE_UPDATED", "FRESHNESS_DECAY_APPLIED", "ARTIFACT_SUPERSEDED",
   "ARCHIVE_RECOMMENDED", "PRUNE_CACHE_RECOMMENDED", "FILE_ARCHIVED",
   "SESSION_STARTED", "SESSION_ENDED"]

/-- Kind of message carried by a `ValidationError` (the embedding keeps
the Python f-string messages as structured tags; no claim inspects the
message text). -/
inductive VMsg where
  | missingRequiredField
  | typeMismatch
  | unknownEventType
  | missingActorField
  | actorTypeMismatch
  | missingPayloadField
  | payloadTypeMismatch
deriving DecidableEq

/-- Source `ValidationError`: a single validation error. -/
structure ValidationError where
  path : String
  message : VMsg
  value : Option PyVal := Option.none
deriving DecidableEq

/-- Source `ValidationResult`. -/
structure ValidationResult where
  valid : Bool
  errors : List ValidationError
deriving DecidableEq

namespace ValidationResult

/-- Source `ValidationResult.ok`. -/
def ok : ValidationResult := { valid := true, errors := [] }

/-- Source `ValidationResult.fail`. -/
def fail (path : String) (message : VMsg)
    (value : Option PyVal := Option.none) : ValidationResult :=
  { valid := false, errors := [{ path := path, message := message, value := value }] }

/-- Source `ValidationResult.merge`. -/
def merge (r other : ValidationResult) : ValidationResult :=
  if other.valid then r
  else { valid := false, errors := r.errors ++ other.errors }

end ValidationResult

namespace EventValidator

/-- Source `EventValidator.ENVELOPE_REQUIRED`: required envelope fields
and their types. -/
def ENVELOPE_REQUIRED : List (String × List PyTy) :=
  [("event_id", [.str]),
   ("event_type", [.str]),
   ("ts", [.int, .float]),
   ("actor", [.dict]),
   ("payload", [.dict])]

/-- Source `EventValidator.ENVELOPE_OPTIONAL`: optional envelope fields
and their types. -/
def ENVELOPE_OPTIONAL : List (String × List PyTy) :=
  [("artifact_id", [.str, .noneT]),
   ("confidence", [.int, .float, .noneT]),
   ("evidence_refs", [.list]),
   ("session_id", [.str, .noneT])]

/-- Source `EventValidator.ACTOR_REQUIRED`. -/
def ACTOR_REQUIRED : List (String × PyTy) :=
  [("module", .str)]

/-- Source `EventValidator.PAYLOAD_SCHEMAS`: per-event-type payload
schemas, each field mapped to its admissible types and whether it is
required. -/
def PAYLOAD_SCHEMAS : List (String × List (String × (List PyTy × Bool))) :=
  [("ARTIFACT_SEEN",
    [("artifact_id", ([.str], true)),
     ("locator", ([.str], true)),
     ("artifact_kind", ([.str], false)),
     ("size_bytes", ([.int], false)),
     ("mtime", ([.int, .float], false))]),
   ("FINGERPRINT_COMPUTED",
    [("artifact_id", ([.str], true)),
     ("content_hash", ([.str], true)),
     ("structure_hash", ([.str, .noneT], false)),
     ("entropy_score", ([.int, .float, .noneT], false))]),
   ("EXTRACTION_PERFORMED",
    [("artifact_id", ([.str], true)),
     ("extraction_depth", ([.int], false)),
     ("extracted_metadata", ([.dict], false)),
     ("extraction_errors", ([.list], false))]),
   ("ACCESS_LIMITATION_NOTED",
    [("artifact_id", ([.str], true)),
     ("limitation_type", ([.str], true)),
     ("reason", ([.str], false))]),
   ("REMOTE_LOOKUP_DECLINED",
    [("url", ([.str], true)),
     ("reason", ([.str], true))]),
   ("TAGS_PROPOSED",
    [("artifact_id", ([.str], true)),
     ("tags", ([.list], true)),
     ("tag_type", ([.str], false))]),
   ("ROLES_PROPOSED",
    [("artifact_id", ([.str], true)),
     ("roles", ([.list], true))]),
   ("RELATION_PROPOSED",
    [("source_id", ([.str], true)),
     ("target_id", ([.str], true)),
     ("relation_type", ([.str], true)),
     ("directional", ([.bool], false))]),
   ("CONFLICT_DETECTED",
    [("artifact_ids", ([.list], true)),
     ("conflict_type", ([.str], true)),
     ("description", ([.str], false))]),
   ("HYPOTHESIS_NOTED",
    [("hypothesis", ([.str], true)),
     ("supporting_evidence", ([.list], false))]),
   ("CONFIDENCE_UPDATED",
    [("artifact_id", ([.str], true)),
     ("old_confidence", ([.int, .float, .noneT], false)),
     ("new_confidence", ([.int, .float], true)),
     ("reason", ([.str], false))]),
   ("FRESHNESS_DECAY_APPLIED",
    [("artifact_id", ([.str], true)),
     ("decay_factor", ([.int, .float], true))]),
   ("ARTIFACT_SUPERSEDED",
    [("old_artifact_id", ([.str], true)),
     ("new_artifact_id", ([.str], true)),
     ("reason", ([.str], false))]),
   ("ARCHIVE_RECOMMENDED",
    [("artifact_id", ([.str], true)),
     ("reason", ([.str], true)),
     ("staleness_days", ([.int, .float], false))]),
   ("PRUNE_CACHE_RECOMMENDED",
    [("path", ([.str], true)),
     ("reason", ([.str], true)),
     ("age_days", ([.int, .float], false))]),
   ("FILE_ARCHIVED",
    [("original_path", ([.str], true)),
     ("archive_path", ([.str], true))]),
   ("SESSION_STARTED",
    [("target", ([.str], false)),
     ("command", ([.str], false))]),
   ("SESSION_ENDED",
    [("duration_ms", ([.int, .float], false)),
     ("files_seen", ([.int], false)),
     ("bytes_accounted", ([.int], false)),
     ("stopped_reason", ([.str, .noneT], false))])]

/-- Source `EventValidator._validate_envelope`: required fields checked
for presence and type, optional fields type-checked when present and
not `None`. -/
def validate_envelope (event : PyFields) : ValidationResult :=
  let afterRequired :=
    ENVELOPE_REQUIRED.foldl
      (fun result p =>
        match event.get p.1 with
        | Option.none =>
            result.merge (ValidationResult.fail p.1 .missingRequiredField)
        | Option.some v =>
            if pyIsInstanceAny v p.2 then result
            else
              result.merge
                (ValidationResult.fail p.1 .typeMismatch (Option.some v)))
      ValidationResult.ok
  ENVELOPE_OPTIONAL.foldl
    (fun result p =>
      match event.get p.1 with
      | Option.none => result
      | Option.some v =>
          if v = PyVal.none then result
          else if pyIsInstanceAny v p.2 then result
          else
            result.merge
              (ValidationResult.fail p.1 .typeMismatch (Option.some v)))
    afterRequired

/-- Source `EventValidator._validate_event_type`: membership in the
`EventType` enum. -/
def validate_event_type (event_type : String) : ValidationResult :=
  if knownEventTypes.contains event_type then ValidationResult.ok
  else ValidationResult.fail "event_type" .unknownEventType
    (Option.some (PyVal.str event_type))

/-- Source `EventValidator._validate_actor`. -/
def validate_actor (actor : PyFields) : ValidationResult :=
  ACTOR_REQUIRED.foldl
    (fun result p =>
      match actor.get p.1 with
      | Option.none =>
          result.merge
            (ValidationResult.fail ("actor." ++ p.1) .missingActorField)
      | Option.some v =>
          if pyIsInstance v p.2 then result
          else
            result.merge
              (ValidationResult.fail ("actor." ++ p.1) .actorTypeMismatch
                (Option.some v)))
    ValidationResult.ok

/-- Loop body of `EventValidator._validate_payload` for one declared
field `p = (name, (types, required))`: checked for presence (when
required) and type (when present and not `None`). -/
def payloadFieldCheck (payload : PyFields) (result : ValidationResult)
    (p : String × (List PyTy × Bool)) : ValidationResult :=
  match payload.get p.1 with
  | Option.none =>
      if p.2.2 then
        result.merge
          (ValidationResult.fail ("payload." ++ p.1) .missingPayloadField)
      else result
  | Option.some v =>
      if v ≠ PyVal.none ∧ ¬ pyIsInstanceAny v p.2.1 then
        result.merge
          (ValidationResult.fail ("payload." ++ p.1) .payloadTypeMismatch
            (Option.some v))
      else result

/-- Source `EventValidator._validate_payload`: the declared schema
fields of the event type folded through `payloadFieldCheck`. -/
def validate_payload (event_type : String) (payload : PyFields) :
    ValidationResult :=
  let schema :=
    ((PAYLOAD_SCHEMAS.find? (fun p => p.1 = event_type)).map Prod.snd).getD []
  schema.foldl (payloadFieldCheck payload) ValidationResult.ok

/-- Helper reading `event["event_type"]` as a string; the fallback is
unreachable because `validate` only reaches this read after the
envelope validated (`event_type` present and a `str`). -/
def eventTypeStr (event : PyFields) : String :=
  match event.get "event_type" with
  | Option.some (.str s) => s
  | _ => ""

/-- Helper reading `event.get("actor", {})` as a dict; the non-dict
fallback is unreachable after envelope validation. -/
def actorDict (event : PyFields) : PyFields :=
  match event.get "actor" with
  | Option.some (.dict es) => es
  | _ => .nil

/-- Helper reading `event.get("payload", {})` as a dict; the non-dict
fallback is unreachable after envelope validation. -/
def payloadDict (event : PyFields) : PyFields :=
  match event.get "payload" with
  | Option.some (.dict es) => es
  | _ => .nil

/-- Source `EventValidator.validate`: envelope phase (aborting on
failure), then event-type check, actor check and per-type payload
check, merging all errors. -/
def validate (event : PyFields) : ValidationResult :=
  let result := ValidationResult.ok.merge (validate_envelope event)
  if ¬ result.valid then result
  else
    let event_type := eventTypeStr event
    let result := result.merge (validate_event_type event_type)
    let result := result.merge (validate_actor (actorDict event))
    if (PAYLOAD_SCHEMAS.find? (fun p => p.1 = event_type)).isSome then
      result.merge (validate_payload event_type (payloadDict event))
    else result

end EventValidator

/-- Source `validate_strict`: strict validation entry point. -/
def validate_strict (event : PyFields) : ValidationResult :=
  EventValidator.validate event

end Validator

section Reader
/-! ## Source `src/atlas/ledger/reader.py`

`EventReader.read_all` is a generator over the sorted segment files of
the ledger directory; `json.loads` is abstracted as a `loads` parameter
returning `Option` (parse failure = `JSONDecodeError`).  A raised
`JSONDecodeError` escapes the generator: iteration ends after the
events already yielded, and the remaining lines and files are never
visited.  The result is the list of yielded events paired with whether
the read aborted on a malformed line. -/

/-- Yield loop of `EventReader.read_all` over the concatenated lines:
`yield json.loads(line)` for each line, stopping with an escaped error
at the first unparseable line. -/
def readLines (loads : String → Option PyFields) :
    List String → List PyFields × Bool
  | [] => ([], false)
  | l :: rest =>
    match loads l with
    | Option.some e =>
        let r := readLines loads rest
        (e :: r.1, r.2)
    | Option.none => ([], true)

/-- Source `EventReader.read_all`: iterates the `*.jsonl` segment files
in sorted filename order (given here as `files`, each a list of lines)
and yields `json.loads` of every line. -/
def EventReader.read_all (loads : String → Option PyFields)
    (files : List (List String)) : List PyFields × Bool :=
  readLines loads files.flatten

end Reader

section Reducers
/-! ## Source `src/atlas/ledger/reducers.py` (`project_relations`)

Events on this path are parsed JSON lines: dicts of `PyVal`s. -/

/-- One row appended by `project_relations` to `relations[source]`
(the Python dict literal `{"target_id": …, "relation_type": …,
"confidence": …, "event_id": …}`).  A `dict.get` miss stores Python
`None`, i.e. `PyVal.none`. -/
structure RelRow where
  target_id : PyVal
  relation_type : PyVal
  confidence : PyVal
  event_id : PyVal
deriving DecidableEq

/-- Source `project_relations`: folds `RELATION_PROPOSED` events into a
dict mapping the source artifact id to the list of its proposed
relations.  Each accepted event appends a new row; nothing is ever
updated in place. -/
def project_relations (events : List PyFields) :
    List (PyVal × List RelRow) :=
  events.foldl
    (fun relations event =>
      if event.getD "event_type" (.str "") ≠ PyVal.str "RELATION_PROPOSED" then
        relations
      else
        let payload :=
          match event.get "payload" with
          | Option.some (.dict es) => es
          | _ => PyFields.nil
        let source := (payload.get "source_id").getD PyVal.none
        let target := (payload.get "target_id").getD PyVal.none
        let relation_type := (payload.get "relation_type").getD PyVal.none
        let confidence :=
          event.getD "confidence" ((payload.get "confidence").getD PyVal.none)
        if ¬ source.truthy ∨ ¬ target.truthy ∨ ¬ relation_type.truthy then
          relations
        else
          let row : RelRow :=
            { target_id := target
              relation_type := relation_type
              confidence := confidence
              event_id := (event.get "event_id").getD PyVal.none }
          if relations.any (fun p => p.1 = source) then
            relations.map
              (fun p => if p.1 = source then (p.1, p.2 ++ [row]) else p)
          else
            relations ++ [(source, [row])])
    []

end Reducers

section Projection
/-! ## Sources `src/atlas/ledger/events.py` and
`src/atlas/ledger/projection.py`

Events on this path are the frozen `Event` dataclasses.  `UUID`s are
modelled as strings, `datetime` instants as rationals. -/

/-- Source `EventType` (`events.py`): categories of events. -/
inductive EventType where
  | ARTIFACT_OBSERVED
  | ARTIFACT_CONTENT_EXTRACTED
  | ARTIFACT_ACCESS_DENIED
  | ARTIFACT_DISAPPEARED
  | ARTIFACT_CHANGED
  | FINGERPRINT_COMPUTED
  | FINGERPRINT_COLLISION_DETECTED
  | TAG_PROPOSED
  | ROLE_PROPOSED
  | RELATION_PROPOSED
  | CONFLICT_DETECTED
  | CONFLICT_RECORDED
  | PROVENANCE_CHAIN_EXTENDED
  | ARTIFACT_SUPERSEDED
  | CONFIDENCE_UPDATED
  | EVIDENCE_ADDED
  | SESSION_STARTED
  | SESSION_ENDED
  | BUDGET_EXHAUSTED
  | ERROR_RECORDED
deriving DecidableEq

/-- Source `EventMetadata`: metadata attached to every event. -/
structure EventMetadata where
  event_id : String
  timestamp : ℚ
  event_type : EventType
  source : String
  session_id : Option String := Option.none
  correlation_id : Option String := Option.none
deriving DecidableEq

/-- Source `Event`: the base event structure. -/
structure Event where
  metadata : EventMetadata
  payload : PyFields
  artifact_refs : List String := []
  event_refs : List String := []
deriving DecidableEq

namespace Event

/-- Source `Event.event_id` property. -/
def event_id (e : Event) : String := e.metadata.event_id

/-- Source `Event.event_type` property. -/
def event_type (e : Event) : EventType := e.metadata.event_type

/-- Source `Event.timestamp` property. -/
def timestamp (e : Event) : ℚ := e.metadata.timestamp

end Event

/-- Source `ArtifactSnapshot`: current state of an artifact derived
from events.  Fields assigned from `payload.get(...)` hold
`Option PyVal` (`none` = Python `None` from a missing key). -/
structure ArtifactSnapshot where
  artifact_id : String
  first_seen : ℚ
  last_seen : ℚ
  source_type : Option PyVal := Option.none
  source_locator : Option PyVal := Option.none
  access_scope : Option PyVal := Option.none
  content_hash : Option PyVal := Option.none
  structure_hash : Option PyVal := Option.none
  size_bytes : Option PyVal := Option.none
  entropy_score : Option PyVal := Option.none
  tags : List (PyVal × (Option PyVal × PyVal)) := []
  roles : List (PyVal × PyVal) := []
  confidence_score : Option PyVal := Option.none
  confidence_reasoning : Option PyVal := Option.none
  observation_count : Nat := 0
  change_count : Nat := 0
  error_count : Nat := 0
deriving DecidableEq

/-- Python ordered-dict update `d[k] = v`: rewrites an existing key in
place, appends a fresh key at the end. -/
def dictUpd {κ α : Type} [DecidableEq κ] (m : List (κ × α)) (k : κ) (v : α) :
    List (κ × α) :=
  if m.any (fun p => p.1 = k) then
    m.map (fun p => if p.1 = k then (k, v) else p)
  else m ++ [(k, v)]

namespace ArtifactProjector

/-- State of `ArtifactProjector`: the `_snapshots` ordered dict. -/
abbrev State := List (String × ArtifactSnapshot)

/-- Source `ArtifactProjector._ensure_artifact`: get or create a
snapshot for `artifact_id`. -/
def ensure_artifact (m : State) (artifact_id : String) (timestamp : ℚ) :
    State :=
  if m.any (fun p => p.1 = artifact_id) then m
  else
    m ++ [(artifact_id,
           { artifact_id := artifact_id
             first_seen := timestamp
             last_seen := timestamp })]

/-- Mutation of the snapshot object aliased inside `_snapshots`
(`snapshot = self._ensure_artifact(...)` followed by field writes). -/
def withSnap (m : State) (artifact_id : String) (timestamp : ℚ)
    (f : ArtifactSnapshot → ArtifactSnapshot) : State :=
  (ensure_artifact m artifact_id timestamp).map
    (fun p => if p.1 = artifact_id then (p.1, f p.2) else p)

/-- Source `ArtifactProjector._handle_artifact_observed` body for one
artifact ref. -/
def observedUpd (e : Event) (s : ArtifactSnapshot) : ArtifactSnapshot :=
  { s with
    last_seen := e.timestamp
    observation_count := s.observation_count + 1
    source_type := e.payload.get "source_type"
    source_locator := e.payload.get "source_locator"
    access_scope := e.payload.get "access_scope" }

/-- Source `ArtifactProjector._handle_artifact_content_extracted` body
for one artifact ref. -/
def extractedUpd (e : Event) (s : ArtifactSnapshot) : ArtifactSnapshot :=
  let s :=
    { s with
      last_seen := e.timestamp
      size_bytes := e.payload.get "size_bytes"
      content_hash := e.payload.get "content_hash" }
  if ((e.payload.get "errors").getD PyVal.none).truthy then
    { s with
      error_count := s.error_count + ((e.payload.get "errors").getD PyVal.none).pyLen }
  else s

/-- Source `ArtifactProjector._handle_artifact_changed` body for one
artifact ref. -/
def changedUpd (e : Event) (s : ArtifactSnapshot) : ArtifactSnapshot :=
  { s with
    last_seen := e.timestamp
    change_count := s.change_count + 1
    content_hash := e.payload.get "current_hash" }

/-- Source `ArtifactProjector._handle_fingerprint_computed` body for
one artifact ref. -/
def fingerprintUpd (e : Event) (s : ArtifactSnapshot) : ArtifactSnapshot :=
  { s with
    content_hash := e.payload.get "content_hash"
    structure_hash := e.payload.get "structure_hash"
    size_bytes := e.payload.get "size_bytes"
    entropy_score := e.payload.get "entropy_score" }

/-- Source `ArtifactProjector._handle_tag_proposed` body for one
artifact ref: one slot per truthy tag group, most recent proposal
wins. -/
def tagUpd (e : Event) (s : ArtifactSnapshot) : ArtifactSnapshot :=
  let tag_group := (e.payload.get "tag_group").getD PyVal.none
  let tag_value := e.payload.get "tag_value"
  let confidence := e.payload.getD "confidence_score" (.float 0)
  if tag_group.truthy then
    { s with tags := dictUpd s.tags tag_group (tag_value, confidence) }
  else s

/-- Source `ArtifactProjector._handle_role_proposed` body for one
artifact ref. -/
def roleUpd (e : Event) (s : ArtifactSnapshot) : ArtifactSnapshot :=
  let role := (e.payload.get "role").getD PyVal.none
  let confidence := e.payload.getD "confidence_score" (.float 0)
  if role.truthy then
    { s with roles := dictUpd s.roles role confidence }
  else s

/-- Source `ArtifactProjector._handle_confidence_updated` body for one
artifact ref. -/
def confidenceUpd (e : Event) (s : ArtifactSnapshot) : ArtifactSnapshot :=
  { s with
    confidence_score := e.payload.get "new_score"
    confidence_reasoning := e.payload.get "reasoning" }

/-- Source `ArtifactProjector._handle_error_recorded` body for one
artifact ref. -/
def errorUpd (_e : Event) (s : ArtifactSnapshot) : ArtifactSnapshot :=
  { s with error_count := s.error_count + 1 }

/-- Apply one handler body to every artifact ref of the event. -/
def handleRefs (m : State) (e : Event)
    (f : Event → ArtifactSnapshot → ArtifactSnapshot) : State :=
  e.artifact_refs.foldl (fun m aid => withSnap m aid e.timestamp (f e)) m

/-- Source `ArtifactProjector.apply`: dispatch on
`_handle_{event_type.name.lower()}`; event types without a handler are
no-ops. -/
def apply (m : State) (e : Event) : State :=
  match e.event_type with
  | .ARTIFACT_OBSERVED => handleRefs m e observedUpd
  | .ARTIFACT_CONTENT_EXTRACTED => handleRefs m e extractedUpd
  | .ARTIFACT_CHANGED => handleRefs m e changedUpd
  | .FINGERPRINT_COMPUTED => handleRefs m e fingerprintUpd
  | .TAG_PROPOSED => handleRefs m e tagUpd
  | .ROLE_PROPOSED => handleRefs m e roleUpd
  | .CONFIDENCE_UPDATED => handleRefs m e confidenceUpd
  | .ERROR_RECORDED => handleRefs m e errorUpd
  | _ => m

end ArtifactProjector

/-- Source `RelationSnapshot`: a projected relationship between
artifacts.  `relation_type` and `confidence_score` carry the raw
payload values. -/
structure RelationSnapshot where
  source_id : String
  target_id : String
  relation_type : PyVal
  confidence_score : PyVal
  last_proposed : ℚ
deriving DecidableEq

namespace RelationProjector

/-- State of `RelationProjector`: the `_relations` list and the
`_index` dict from (source, target, type) keys to list positions. -/
structure State where
  relations : List RelationSnapshot := []
  index : List ((String × String × PyVal) × Nat) := []
deriving DecidableEq

/-- Source `RelationProjector.apply`: upsert keyed by
(source, target, relation_type); an existing key's row is replaced in
place, a new key is appended to both the list and the index. -/
def apply (s : State) (e : Event) : State :=
  if e.event_type ≠ EventType.RELATION_PROPOSED then s
  else
    match e.artifact_refs with
    | source_id :: target_id :: _ =>
      let relation_type := e.payload.getD "relation_type" (.str "unknown")
      let confidence := e.payload.getD "confidence_score" (.float 0)
      let key := (source_id, target_id, relation_type)
      let snap : RelationSnapshot :=
        { source_id := source_id
          target_id := target_id
          relation_type := relation_type
          confidence_score := confidence
          last_proposed := e.timestamp }
      match (s.index.find? (fun p => p.1 = key)).map Prod.snd with
      | Option.some idx => { s with relations := s.relations.set idx snap }
      | Option.none =>
          { relations := s.relations ++ [snap]
            index := s.index ++ [(key, s.relations.length)] }
    | _ => s

end RelationProjector

/-- Source `ConflictRecord`: a recorded conflict. -/
structure ConflictRecord where
  conflict_type : PyVal
  description : PyVal
  artifact_ids : List String
  detected_at : ℚ
  event_id : String
deriving DecidableEq

namespace ConflictProjector

/-- State of `ConflictProjector`: the append-only `_conflicts` list. -/
abbrev State := List ConflictRecord

/-- Source `ConflictProjector.apply`: append one immutable record per
`CONFLICT_DETECTED` event. -/
def apply (s : State) (e : Event) : State :=
  if e.event_type ≠ EventType.CONFLICT_DETECTED then s
  else
    s ++ [{ conflict_type := e.payload.getD "conflict_type" (.str "unknown")
            description := e.payload.getD "description" (.str "")
            artifact_ids := e.artifact_refs
            detected_at := e.timestamp
            event_id := e.event_id }]

end ConflictProjector

/-- Source `ProjectionEngine`: the composite of the three projectors
and the `_last_sequence` counter. -/
structure ProjectionEngine where
  artifacts : ArtifactProjector.State := []
  relations : RelationProjector.State := {}
  conflicts : ConflictProjector.State := []
  last_sequence : Nat := 0
deriving DecidableEq

namespace ProjectionEngine

/-- Source `ProjectionEngine.apply`: apply an event to all
projectors. -/
def apply (s : ProjectionEngine) (e : Event) : ProjectionEngine :=
  { s with
    artifacts := ArtifactProjector.apply s.artifacts e
    relations := RelationProjector.apply s.relations e
    conflicts := ConflictProjector.apply s.conflicts e }

/-- Source `ProjectionEngine.reset`: every projector cleared and
`_last_sequence` zeroed, whatever the previous state was. -/
def reset (_s : ProjectionEngine) : ProjectionEngine := {}

/-- Source `ProjectionEngine.rebuild_from`: `reset()` followed by
`apply` over the ledger's events in order. -/
def rebuild_from (s : ProjectionEngine) (ledger : List Event) :
    ProjectionEngine :=
  ledger.foldl apply s.reset

end ProjectionEngine

end Projection

section TheoremSupport
/-! ## Support definitions used by the statements of the theorems -/

/-- The (source, target, type) uniqueness key of a projected
relation. -/
def relKey (r : RelationSnapshot) : String × String × PyVal :=
  (r.source_id, r.target_id, r.relation_type)

/-- The snapshot `RelationProjector.apply` builds from an event, when
the event is an accepted relation proposal (a `RELATION_PROPOSED`
event with at least two artifact refs); `none` for events the
projector ignores. -/
def validRelSnap (e : Event) : Option RelationSnapshot :=
  if e.event_type ≠ EventType.RELATION_PROPOSED then Option.none
  else
    match e.artifact_refs with
    | source_id :: target_id :: _ =>
        Option.some
          { source_id := source_id
            target_id := target_id
            relation_type := e.payload.getD "relation_type" (.str "unknown")
            confidence_score := e.payload.getD "confidence_score" (.float 0)
            last_proposed := e.timestamp }
    | _ => Option.none

/-- Ordered association upsert on the relation list: replace the rows
carrying the key of `v` in place, or append `v` when its key is new. -/
def relUpsert (rs : List RelationSnapshot) (v : RelationSnapshot) :
    List RelationSnapshot :=
  if rs.any (fun r => relKey r = relKey v) then
    rs.map (fun r => if relKey r = relKey v then v else r)
  else rs ++ [v]

/-- One step of the canonical upsert model of the relation
projection. -/
def relModelStep (rs : List RelationSnapshot) (e : Event) :
    List RelationSnapshot :=
  match validRelSnap e with
  | Option.some v => relUpsert rs v
  | Option.none => rs

/-- Canonical upsert model of the relation projection over an event
stream. -/
def relModel (es : List Event) : List RelationSnapshot :=
  es.foldl relModelStep []

/-- Snapshot of the last accepted relation proposal with key `k` in
the stream, if any. -/
def lastRelSnapFor (es : List Event) (k : String × String × PyVal) :
    Option RelationSnapshot :=
  match es with
  | [] => Option.none
  | e :: rest =>
      match lastRelSnapFor rest k with
      | Option.some v => Option.some v
      | Option.none =>
          match validRelSnap e with
          | Option.some v => if relKey v = k then Option.some v else Option.none
          | Option.none => Option.none

/-- The `_index` dict the relation projector maintains for a given
relation list: each key paired with its position, starting at offset
`n`. -/
def enumKeysFrom (n : Nat) : List RelationSnapshot →
    List ((String × String × PyVal) × Nat)
  | [] => []
  | r :: rs => (relKey r, n) :: enumKeysFrom (n + 1) rs

/-- A declared optional payload field is well-typed in `payload`:
absent, `None`, or an instance of one of its admissible types (the
validator only reports such a field otherwise). -/
def payloadFieldOk (pl : PyFields) (f : String) (tys : List PyTy) : Prop :=
  match pl.get f with
  | Option.none => True
  | Option.some v => v = PyVal.none ∨ pyIsInstanceAny v tys = true

end TheoremSupport

/-! ## Theorems -/

/-- C1: `ProjectionEngine.rebuild_from` over a ledger yielding the
event sequence `E` produces exactly the state obtained by `reset()`
followed by `apply(e)` for each event of `E` in order; the result does
not depend on the engine's prior state, so running `rebuild_from`
twice on the same sequence (in particular, re-running it on the engine
the first run left behind) produces identical projected state both
times. -/
theorem rebuild_from_replays_and_is_deterministic
    (E : List Event) (s t : ProjectionEngine) :
    s.rebuild_from E = E.foldl ProjectionEngine.apply s.reset ∧
    s.rebuild_from E = t.rebuild_from E ∧
    (s.rebuild_from E).rebuild_from E = s.rebuild_from E :=
  ⟨rfl, rfl, rfl⟩

/-- C1 witness: the characterisation instantiated on a concrete
two-event ledger and two distinct starting states. -/
theorem rebuild_from_replays_witness :
    let e1 : Event :=
      { metadata :=
          { event_id := "e1", timestamp := 1,
            event_type := .ARTIFACT_OBSERVED, source := "fs" }
        payload := .cons "source_locator" (.str "/x") .nil
        artifact_refs := ["a1"] }
    let dirty : ProjectionEngine :=
      { conflicts := [{ conflict_type := .str "dup", description := .str "",
                        artifact_ids := ["a9"], detected_at := 0,
                        event_id := "c0" }] }
    ProjectionEngine.rebuild_from dirty [e1] =
      List.foldl ProjectionEngine.apply (ProjectionEngine.reset dirty) [e1] ∧
    ProjectionEngine.rebuild_from dirty [e1] =
      ProjectionEngine.rebuild_from {} [e1] := by
  intro e1 dirty
  exact ⟨(rebuild_from_replays_and_is_deterministic [e1] dirty {}).1,
         (rebuild_from_replays_and_is_deterministic [e1] dirty {}).2.1⟩

/-- List-level form of looking a key up after the in-place dict update
the budget performs. -/
theorem find_upd_of_found (xs : List (BudgetType × BudgetLimit))
    (t : BudgetType) (l l' : BudgetLimit)
    (h : (xs.find? (fun p => p.1 = t)).map Prod.snd = Option.some l) :
    ((xs.map (fun p => if p.1 = t then (t, l') else p)).find?
        (fun p => p.1 = t)).map Prod.snd = Option.some l' := by
  induction xs with
  | nil => simp at h
  | cons p rest ih =>
      by_cases hp : p.1 = t
      · simp [List.find?_cons, hp]
      · rw [List.find?_cons_of_neg _ (by simpa using hp)] at h
        simpa [List.find?_cons, hp] using ih h

/-- Looking a key up after the in-place dict update the budget
performs. -/
theorem Budget.getLimit_setLimit (b : Budget) (t : BudgetType)
    (l l' : BudgetLimit) (h : b.getLimit t = Option.some l) :
    (b.setLimit t l').getLimit t = Option.some l' := by
  unfold Budget.getLimit Budget.setLimit at *
  exact find_upd_of_found b.limits t l l' h

/-- Unpacking `Budget.getLimit`: the found entry is a member of the
limits dict and carries the looked-up key. -/
theorem Budget.getLimit_mem (b : Budget) (t : BudgetType) (l : BudgetLimit)
    (h : b.getLimit t = Option.some l) : (t, l) ∈ b.limits := by
  unfold Budget.getLimit at h
  obtain ⟨p, hfind, hsnd⟩ := Option.map_eq_some'.mp h
  have hmem := List.mem_of_find?_eq_some hfind
  have hkey := List.find?_some hfind
  simp only [decide_eq_true_eq] at hkey
  have : p = (t, l) := by
    cases p
    simp_all
  rwa [this] at hmem

/-- C6: consuming from a budget whose kind has a limit entry adds the
amount to that kind's consumed total unconditionally (even past the
limit) and reports whether the post-consumption total is within the
limit; consuming from a kind with no entry reports `true` and leaves
the budget untouched. -/
theorem budget_consume_records_and_reports
    (b : Budget) (t : BudgetType) (a : ℚ) (h0 : 0 ≤ a) :
    (∀ l, b.getLimit t = Option.some l →
      ((b.consume t a).1.getLimit t =
          Option.some { l with consumed := l.consumed + a } ∧
        ((b.consume t a).2 = true ↔ l.consumed + a ≤ l.limit))) ∧
    (b.getLimit t = Option.none → b.consume t a = (b, true)) := by
  constructor
  · intro l hl
    constructor
    · simp only [Budget.consume, hl, BudgetLimit.consume]
      exact b.getLimit_setLimit t l _ hl
    · simp [Budget.consume, hl, BudgetLimit.consume]
  · intro hl
    simp [Budget.consume, hl]

/-- C6 witness: a bytes limit of 10 with 7 already consumed, consuming
4 records 11 and reports an overshoot, while an absent kind reports
`true`. -/
theorem budget_consume_records_witness :
    let b : Budget :=
      { limits := [(.BYTES_READ,
          { budget_type := .BYTES_READ, limit := 10, consumed := 7 })] }
    (b.consume .BYTES_READ 4).1.getLimit .BYTES_READ =
        Option.some { budget_type := .BYTES_READ, limit := 10, consumed := 7 + 4 } ∧
    ¬ ((b.consume .BYTES_READ 4).2 = true) ∧
    b.consume .DEPTH 4 = (b, true) := by
  intro b
  have h := budget_consume_records_and_reports b .BYTES_READ 4 (by norm_num)
  have h1 := (h.1 { budget_type := .BYTES_READ, limit := 10, consumed := 7 }) rfl
  have h2 := budget_consume_records_and_reports b .DEPTH 4 (by norm_num)
  refine ⟨h1.1, ?_, h2.2 rfl⟩
  rw [h1.2]
  norm_num

/-- C10: a present limit entry whose limit is zero is exhausted before
any consumption, makes the whole budget exhausted, and reports full
utilization — in contrast to an absent entry, which is unlimited. -/
theorem zero_limit_is_immediately_exhausted
    (b : Budget) (k : BudgetType) (l : BudgetLimit) (now : ℚ)
    (hl : b.getLimit k = Option.some l) (hz : l.limit = 0)
    (hc : l.consumed = 0) :
    l.exhausted = true ∧ b.any_exhausted now = true ∧ l.utilization = 1 := by
  have hex : l.exhausted = true := by
    simp [BudgetLimit.exhausted, hz, hc]
  refine ⟨hex, ?_, by simp [BudgetLimit.utilization, hz]⟩
  have hmem := b.getLimit_mem k l hl
  have hany : b.limits.any (fun p => p.2.exhausted) = true :=
    List.any_eq_true.mpr ⟨(k, l), hmem, hex⟩
  simp [Budget.any_exhausted, hany]

/-- C10 witness: a budget created with an items limit of 0 next to a
roomy bytes limit is exhausted from the start with utilization 1. -/
theorem zero_limit_is_immediately_exhausted_witness :
    let z : BudgetLimit := { budget_type := .ITEMS, limit := 0 }
    let b : Budget :=
      { limits := [(.BYTES_READ, { budget_type := .BYTES_READ, limit := 100 }),
                   (.ITEMS, z)] }
    z.exhausted = true ∧ b.any_exhausted 5 = true ∧ z.utilization = 1 := by
  intro z b
  exact zero_limit_is_immediately_exhausted b .ITEMS z 5 rfl rfl rfl

/-- Folding `Budget.consume` over a list of amounts accumulates the
kind's consumed counter by exactly their sum. -/
theorem Budget.getLimit_foldl_consume (amts : List ℚ) (b : Budget)
    (t : BudgetType) (l : BudgetLimit)
    (h : b.getLimit t = Option.some l) :
    (amts.foldl (fun b a => (b.consume t a).1) b).getLimit t =
      Option.some { l with consumed := l.consumed + amts.sum } := by
  induction amts generalizing b l with
  | nil => simpa using h
  | cons a rest ih =>
      have hstep : ((b.consume t a).1).getLimit t =
          Option.some { l with consumed := l.consumed + a } := by
        simp only [Budget.consume, h, BudgetLimit.consume]
        exact b.getLimit_setLimit t l _ h
      have := ih (b.consume t a).1 _ hstep
      simpa [add_assoc] using this

/-- Remaining budget for the bytes kind is clamped at zero. -/
theorem Budget.remaining_bytes_nonneg (b : Budget) (now r : ℚ)
    (h : b.remaining .BYTES_READ now = Option.some r) : 0 ≤ r := by
  unfold Budget.remaining at h
  simp only [reduceCtorEq, if_false] at h
  cases hfind : b.getLimit BudgetType.BYTES_READ with
  | none => rw [hfind] at h; simp at h
  | some l =>
      rw [hfind] at h
      simp only [Option.some.injEq] at h
      rw [← h]
      exact le_max_left 0 _

/-- C7: for a budget holding a fresh bytes limit `L`, any sequence of
nonnegative `consume(BYTES_READ, ·)` calls whose total exceeds `L`
leaves `any_exhausted` true, and after every call of the sequence the
reported remaining bytes budget is never negative. -/
theorem bytes_overrun_exhausts_and_remaining_nonneg
    (L : ℚ) (amts : List ℚ) (b0 : Budget) (now : ℚ)
    (hfresh : b0.getLimit .BYTES_READ =
      Option.some { budget_type := .BYTES_READ, limit := L, consumed := 0 })
    (hpos : ∀ a ∈ amts, 0 ≤ a) (hover : L < amts.sum) :
    (amts.foldl (fun b a => (b.consume .BYTES_READ a).1) b0).any_exhausted now
      = true ∧
    (∀ pre suf, amts = pre ++ suf →
      ∀ r, (pre.foldl (fun b a => (b.consume .BYTES_READ a).1) b0).remaining
          .BYTES_READ now = Option.some r → 0 ≤ r) := by
  constructor
  · have hfold := Budget.getLimit_foldl_consume amts b0 .BYTES_READ _ hfresh
    have hmem := Budget.getLimit_mem _ _ _ hfold
    have hgen : ∀ lim : BudgetLimit, lim.limit ≤ lim.consumed →
        lim.exhausted = true := by
      intro lim h
      simp [BudgetLimit.exhausted, h]
    have hany :
        (amts.foldl (fun b a => (b.consume .BYTES_READ a).1) b0).limits.any
          (fun p => p.2.exhausted) = true := by
      refine List.any_eq_true.mpr ⟨_, hmem, hgen _ ?_⟩
      simpa using le_of_lt hover
    simp [Budget.any_exhausted, hany]
  · intro pre suf _ r hr
    exact Budget.remaining_bytes_nonneg _ now r hr

/-- C7 witness: bytes limit 10, consuming 6 then 7 (total 13 > 10)
exhausts the budget while remaining stays nonnegative after each
call. -/
theorem bytes_overrun_exhausts_witness :
    let b0 : Budget :=
      { limits := [(.BYTES_READ,
          { budget_type := .BYTES_READ, limit := 10, consumed := 0 })] }
    (List.foldl (fun b a => (b.consume .BYTES_READ a).1) b0
        [(6 : ℚ), 7]).any_exhausted 0 = true ∧
    (∀ pre suf, [(6 : ℚ), 7] = pre ++ suf →
      ∀ r, (pre.foldl (fun b a => (b.consume .BYTES_READ a).1) b0).remaining
          .BYTES_READ 0 = Option.some r → 0 ≤ r) := by
  intro b0
  exact bytes_overrun_exhausts_and_remaining_nonneg 10 [6, 7] b0 0 rfl
    (by
      intro a ha
      simp only [List.mem_cons, List.not_mem_nil, or_false] at ha
      rcases ha with rfl | rfl <;> norm_num)
    (by norm_num [List.sum_cons, List.sum_nil])

/-- Decay factors `0.5 ^ y` lie in `[0, 1]` for nonnegative
exponents. -/
theorem half_rpow_mem_unit (y : ℝ) (hy : 0 ≤ y) :
    0 ≤ (0.5 : ℝ) ^ y ∧ (0.5 : ℝ) ^ y ≤ 1 :=
  ⟨Real.rpow_nonneg (by norm_num) y,
   Real.rpow_le_one (by norm_num) (by norm_num) hy⟩

/-- C5: with a current confidence in `[0, 1]`, a contradiction strength
in `[0, 1]`, any recurrence count and a volatility in `[0, 1]`, the
score returned by `reduce_on_contradiction` stays in `[0.05, 1]`, the
score returned by `reinforce` stays in `[0, 1]`, and the score returned
by `apply_freshness_decay` stays in `[0, 1]` — and in `[0.05, 1]`
whenever the call actually changes the score (a skipped decay returns
the input unchanged, which may lie below the 0.05 floor). -/
theorem confidence_evolution_bounds (hasWriter : Bool) (aid : String)
    (c s : ℝ) (n : ℕ) (v now ts : ℝ)
    (hc0 : 0 ≤ c) (hc1 : c ≤ 1) (hs0 : 0 ≤ s) (hs1 : s ≤ 1)
    (hv0 : 0 ≤ v) (hv1 : v ≤ 1) :
    (0.05 ≤ (ConfidenceEngine.reduce_on_contradiction hasWriter aid c s).1 ∧
      (ConfidenceEngine.reduce_on_contradiction hasWriter aid c s).1 ≤ 1) ∧
    (0 ≤ (ConfidenceEngine.reinforce hasWriter aid c n).1 ∧
      (ConfidenceEngine.reinforce hasWriter aid c n).1 ≤ 1) ∧
    (0 ≤ (ConfidenceEngine.apply_freshness_decay hasWriter now aid c ts v).1 ∧
      (ConfidenceEngine.apply_freshness_decay hasWriter now aid c ts v).1 ≤ 1 ∧
      ((ConfidenceEngine.apply_freshness_decay hasWriter now aid c ts v).1 ≠ c →
        0.05 ≤ (ConfidenceEngine.apply_freshness_decay hasWriter now aid c ts v).1)) := by
  have hredeq : (ConfidenceEngine.reduce_on_contradiction hasWriter aid c s).1
      = max 0.05 (c - c * s * 0.5) := rfl
  have hreineq : (ConfidenceEngine.reinforce hasWriter aid c n).1
      = min 1.0 (c + (1.0 - c) * (0.1 / (1 + (n : ℝ) * 0.5))) := rfl
  refine ⟨⟨?_, ?_⟩, ⟨?_, ?_⟩, ?_⟩
  · rw [hredeq]
    exact le_max_left _ _
  · rw [hredeq]
    refine max_le (by norm_num) ?_
    have hred : 0 ≤ c * s * 0.5 := by positivity
    linarith
  · rw [hreineq]
    have hfac : (0:ℝ) ≤ 0.1 / (1 + (n : ℝ) * 0.5) := by positivity
    have hboost : (0:ℝ) ≤ (1.0 - c) * (0.1 / (1 + (n : ℝ) * 0.5)) :=
      mul_nonneg (by linarith) hfac
    exact le_min (by norm_num) (by linarith)
  · rw [hreineq]
    have hm : min (1.0:ℝ) (c + (1.0 - c) * (0.1 / (1 + (n : ℝ) * 0.5))) ≤ 1.0 :=
      min_le_left _ _
    linarith
  · simp only [ConfidenceEngine.apply_freshness_decay]
    split_ifs with hage hsmall
    · exact ⟨hc0, hc1, fun h => absurd rfl h⟩
    · exact ⟨hc0, hc1, fun h => absurd rfl h⟩
    · have hexp : 0 ≤ ((now - ts) / 3600) / (720 - v * 696) := by
        have h24 : (0:ℝ) < 720 - v * 696 := by linarith
        have : 0 < (now - ts) / 3600 := lt_of_not_le hage
        positivity
      obtain ⟨hd0, hd1⟩ := half_rpow_mem_unit _ hexp
      refine ⟨by positivity, ?_, fun _ => le_max_left _ _⟩
      exact max_le (by norm_num) (mul_le_one₀ hc1 hd0 hd1)

/-- C5 witness: the bounds instantiated at confidence 0.6,
contradiction strength 0.5, recurrence count 2, volatility 0.5, and a
one-day age. -/
theorem confidence_evolution_bounds_witness :
    (0.05 ≤ (ConfidenceEngine.reduce_on_contradiction true "a" 0.6 0.5).1 ∧
      (ConfidenceEngine.reduce_on_contradiction true "a" 0.6 0.5).1 ≤ 1) ∧
    (0 ≤ (ConfidenceEngine.reinforce true "a" 0.6 2).1 ∧
      (ConfidenceEngine.reinforce true "a" 0.6 2).1 ≤ 1) ∧
    (0 ≤ (ConfidenceEngine.apply_freshness_decay true 86400 "a" 0.6 0 0.5).1 ∧
      (ConfidenceEngine.apply_freshness_decay true 86400 "a" 0.6 0 0.5).1 ≤ 1 ∧
      ((ConfidenceEngine.apply_freshness_decay true 86400 "a" 0.6 0 0.5).1 ≠ 0.6 →
        0.05 ≤ (ConfidenceEngine.apply_freshness_decay true 86400 "a" 0.6 0 0.5).1)) :=
  confidence_evolution_bounds true "a" 0.6 0.5 2 0.5 86400 0
    (by norm_num) (by norm_num) (by norm_num) (by norm_num)
    (by norm_num) (by norm_num)

/-- C5 counterexample: `apply_freshness_decay` does not always stay
within `[0.05, 1.0]` on valid inputs — at confidence 0 (valid),
volatility 0.5 (valid) and zero age (the claim admits any age), it
returns 0, below the floor. -/
theorem confidence_decay_below_floor_counterexample :
    (0:ℝ) ≤ 0 ∧ (0:ℝ) ≤ 1 ∧ (0:ℝ) ≤ 0.5 ∧ (0.5:ℝ) ≤ 1 ∧
    (ConfidenceEngine.apply_freshness_decay true 0 "a1" 0 0 0.5).1 < 0.05 := by
  refine ⟨le_refl _, by norm_num, by norm_num, by norm_num, ?_⟩
  simp only [ConfidenceEngine.apply_freshness_decay]
  norm_num

/-- Helper: when the age is positive but the floored decayed value
differs from the current score by less than the 0.001 threshold,
`apply_freshness_decay` returns the current score and emits nothing. -/
theorem apply_freshness_decay_skip (hasWriter : Bool) (now aid_ts : ℝ)
    (aid : String) (c v : ℝ)
    (hage : 0 < (now - aid_ts) / 3600)
    (hsmall : |max 0.05 (c * (0.5 : ℝ) ^ (((now - aid_ts) / 3600) /
        (720 - v * 696))) - c| < 0.001) :
    ConfidenceEngine.apply_freshness_decay hasWriter now aid c aid_ts v
      = (c, []) := by
  simp only [ConfidenceEngine.apply_freshness_decay]
  rw [if_neg (not_le.mpr hage), if_pos hsmall]

/-- Helper: the concrete sub-threshold instance — confidence 0.0495,
volatility 0, age one hour.  The floored decayed value is exactly the
0.05 floor, within 0.001 of the current score, so the decay is
skipped. -/
theorem decay_skip_instance_facts :
    max 0.05 ((0.0495 : ℝ) * (0.5 : ℝ) ^ ((((3600 : ℝ) - 0) / 3600) /
        (720 - 0 * 696))) = 0.05 ∧
    |max 0.05 ((0.0495 : ℝ) * (0.5 : ℝ) ^ ((((3600 : ℝ) - 0) / 3600) /
        (720 - 0 * 696))) - 0.0495| < 0.001 := by
  have hexp : (0:ℝ) ≤ (((3600 : ℝ) - 0) / 3600) / (720 - 0 * 696) := by
    norm_num
  obtain ⟨hd0, hd1⟩ := half_rpow_mem_unit _ hexp
  have hmul : (0.0495 : ℝ) * (0.5 : ℝ) ^ ((((3600 : ℝ) - 0) / 3600) /
      (720 - 0 * 696)) ≤ 0.0495 :=
    mul_le_of_le_one_right (by norm_num) hd1
  have hmax : max 0.05 ((0.0495 : ℝ) * (0.5 : ℝ) ^ ((((3600 : ℝ) - 0) / 3600) /
      (720 - 0 * 696))) = 0.05 :=
    max_eq_left (le_trans hmul (by norm_num))
  refine ⟨hmax, ?_⟩
  rw [hmax, abs_lt]
  constructor <;> norm_num

/-- C9: a positive-age freshness-decay call whose floored decayed value
differs from the current score by strictly less than 0.001 returns the
current score unchanged and emits no `CONFIDENCE_UPDATED` event — the
sub-threshold decay is discarded from the returned score, not merely
left out of the audit log. -/
theorem subthreshold_decay_discarded (hasWriter : Bool)
    (now ts : ℝ) (aid : String) (c v : ℝ)
    (hage : 0 < (now - ts) / 3600)
    (hsmall : |max 0.05 (c * (0.5 : ℝ) ^ (((now - ts) / 3600) /
        (720 - v * 696))) - c| < 0.001) :
    ConfidenceEngine.apply_freshness_decay hasWriter now aid c ts v
      = (c, []) :=
  apply_freshness_decay_skip hasWriter now ts aid c v hage hsmall

/-- C9 witness: confidence 0.0495, volatility 0, one hour of age — the
floored decayed value 0.05 is within 0.001 of 0.0495, so the call
returns 0.0495 and emits nothing. -/
theorem subthreshold_decay_discarded_witness :
    ConfidenceEngine.apply_freshness_decay true 3600 "a1" 0.0495 0 0
      = (0.0495, []) :=
  subthreshold_decay_discarded true 3600 0 "a1" 0.0495 0
    (by norm_num) decay_skip_instance_facts.2

/-- C4 (amended): whenever the age is positive, the volatility lies in
`[0, 1]` and the floored decayed value differs from the current score
by at least the 0.001 threshold, `apply_freshness_decay` returns
exactly `max(0.05, old * 0.5 ^ (age_hours / (720 - volatility * 696)))`
together with one `CONFIDENCE_UPDATED` event; and in the spec scenario
(confidence 0.6, volatility 1.0, 24 elapsed hours, writer attached)
it returns exactly 0.3 and exactly one event. -/
theorem freshness_decay_formula_when_material (hasWriter : Bool)
    (now ts : ℝ) (aid : String) (c v : ℝ)
    (hage : 0 < (now - ts) / 3600) (hv0 : 0 ≤ v) (hv1 : v ≤ 1)
    (hthresh : 0.001 ≤ |max 0.05 (c * (0.5 : ℝ) ^ (((now - ts) / 3600) /
        (720 - v * 696))) - c|) :
    ConfidenceEngine.apply_freshness_decay hasWriter now aid c ts v =
      (max 0.05 (c * (0.5 : ℝ) ^ (((now - ts) / 3600) / (720 - v * 696))),
       ConfidenceEngine.emit_confidence_updated hasWriter aid c
         (max 0.05 (c * (0.5 : ℝ) ^ (((now - ts) / 3600) / (720 - v * 696))))) ∧
    ConfidenceEngine.apply_freshness_decay true 86400 "a" 0.6 0 1 =
      (0.3, [{ artifact_id := "a", old_confidence := 0.6,
               new_confidence := 0.3, delta := 0.3 - 0.6 }]) := by
  constructor
  · simp only [ConfidenceEngine.apply_freshness_decay]
    rw [if_neg (not_le.mpr hage), if_neg (not_lt.mpr hthresh)]
  · have hexp : (((86400 : ℝ) - 0) / 3600) / (720 - 1 * 696) = 1 := by
      norm_num
    have hpow : (0.5 : ℝ) ^ ((((86400 : ℝ) - 0) / 3600) / (720 - 1 * 696))
        = 0.5 := by
      rw [hexp, Real.rpow_one]
    have hmax : max 0.05 ((0.6 : ℝ) * (0.5 : ℝ) ^ ((((86400 : ℝ) - 0) / 3600) /
        (720 - 1 * 696))) = 0.3 := by
      rw [hpow]
      norm_num
    simp only [ConfidenceEngine.apply_freshness_decay]
    rw [if_neg (by norm_num), hmax, if_neg (by rw [abs_lt]; norm_num)]
    simp [ConfidenceEngine.emit_confidence_updated]

/-- C4 counterexample: at the valid input (confidence 0.0495, positive
one-hour age, volatility 0), the returned score is the unchanged
0.0495, not the value `max(0.05, old * 0.5 ^ (age / half_life))` the
claim states (which equals the 0.05 floor here): sub-threshold decays
break the unconditional formula. -/
theorem freshness_decay_formula_counterexample :
    (0 : ℝ) < ((3600 : ℝ) - 0) / 3600 ∧ (0 : ℝ) ≤ 0 ∧ (0 : ℝ) ≤ 1 ∧
    (ConfidenceEngine.apply_freshness_decay true 3600 "a1" 0.0495 0 0).1 ≠
      max 0.05 ((0.0495 : ℝ) * (0.5 : ℝ) ^ ((((3600 : ℝ) - 0) / 3600) /
        (720 - 0 * 696))) := by
  refine ⟨by norm_num, le_refl _, by norm_num, ?_⟩
  rw [apply_freshness_decay_skip true 3600 0 "a1" 0.0495 0 (by norm_num)
      decay_skip_instance_facts.2]
  rw [decay_skip_instance_facts.1]
  norm_num

/-- Helper: the decayed-and-floored value in the spec scenario
(confidence 0.6, volatility 1, 24 elapsed hours) is exactly 0.3. -/
theorem scenario_decay_max :
    max 0.05 ((0.6 : ℝ) * (0.5 : ℝ) ^ ((((86400 : ℝ) - 0) / 3600) /
      (720 - 1 * 696))) = 0.3 := by
  have hexp : (((86400 : ℝ) - 0) / 3600) / (720 - 1 * 696) = 1 := by
    norm_num
  rw [hexp, Real.rpow_one]
  norm_num

/-- C4 witness: the amended formula applied at the spec scenario input
(confidence 0.6, volatility 1, 24 elapsed hours, writer attached). -/
theorem freshness_decay_formula_witness :
    ConfidenceEngine.apply_freshness_decay true 86400 "a" 0.6 0 1 =
      (max 0.05 ((0.6 : ℝ) * (0.5 : ℝ) ^ ((((86400 : ℝ) - 0) / 3600) /
         (720 - 1 * 696))),
       ConfidenceEngine.emit_confidence_updated true "a" 0.6
         (max 0.05 ((0.6 : ℝ) * (0.5 : ℝ) ^ ((((86400 : ℝ) - 0) / 3600) /
           (720 - 1 * 696))))) :=
  (freshness_decay_formula_when_material true 86400 0 "a" 0.6 1
    (by norm_num) (by norm_num) (by norm_num)
    (by
      rw [scenario_decay_max]
      exact le_abs.mpr (Or.inr (by norm_num)))).1

/-- C3 (amended): reading the ledger yields exactly the parsed events
of the longest all-parseable leading run of lines; a malformed line
raises out of the generator, so the read aborts there — well-formed
lines after the first malformed one are never yielded — and the read
reports an escaped parse error precisely when some line is
malformed. -/
theorem read_all_aborts_at_first_malformed_line
    (loads : String → Option PyFields) (files : List (List String)) :
    EventReader.read_all loads files =
      ((files.flatten.takeWhile (fun l => (loads l).isSome)).filterMap loads,
       files.flatten.any (fun l => (loads l).isNone)) := by
  unfold EventReader.read_all
  induction files.flatten with
  | nil => simp [readLines]
  | cons l rest ih =>
      cases h : loads l with
      | some e =>
          simp [readLines, h, List.takeWhile_cons, List.any_cons, ih]
      | none =>
          simp [readLines, h, List.takeWhile_cons, List.any_cons]

/-- C3 counterexample: with a malformed middle line, the well-formed
event on the following line is parseable yet never yielded — the
malformed line aborts the rest of the read instead of being
skipped. -/
theorem read_all_aborts_counterexample :
    let loads : String → Option PyFields := fun s =>
      if s = "not json" then Option.none
      else Option.some (.cons "event_id" (.str s) .nil)
    let files := [["e1", "not json", "e2"]]
    (EventReader.read_all loads files).1 =
        [.cons "event_id" (.str "e1") .nil] ∧
    loads "e2" = Option.some (.cons "event_id" (.str "e2") .nil) ∧
    ¬ ((PyFields.cons "event_id" (.str "e2") .nil) ∈
        (EventReader.read_all loads files).1) ∧
    (EventReader.read_all loads files).2 = true := by
  refine ⟨rfl, rfl, ?_, rfl⟩
  intro hmem
  simp [EventReader.read_all, readLines] at hmem

/-- Helper: a well-typed optional field leaves the running validation
result unchanged. -/
theorem payloadFieldCheck_optional_ok (pl : PyFields)
    (r : ValidationResult) (f : String) (tys : List PyTy)
    (h : payloadFieldOk pl f tys) :
    EventValidator.payloadFieldCheck pl r (f, (tys, false)) = r := by
  unfold payloadFieldOk at h
  unfold EventValidator.payloadFieldCheck
  cases hf : pl.get f with
  | none => rfl
  | some v =>
      rw [hf] at h
      rcases h with h | h
      · subst h
        simp
      · simp [h]

/-- Helper: a present field of one of the admissible types leaves the
running validation result unchanged. -/
theorem payloadFieldCheck_present_ok (pl : PyFields)
    (r : ValidationResult) (f : String) (tys : List PyTy) (req : Bool)
    (v : PyVal) (hf : pl.get f = Option.some v)
    (hv : pyIsInstanceAny v tys = true) :
    EventValidator.payloadFieldCheck pl r (f, (tys, req)) = r := by
  unfold EventValidator.payloadFieldCheck
  rw [hf]
  simp [hv]

/-- Helper: a missing required field appends exactly one
missing-payload-field error. -/
theorem payloadFieldCheck_missing_required (pl : PyFields)
    (r : ValidationResult) (f : String) (tys : List PyTy)
    (hf : pl.get f = Option.none) :
    EventValidator.payloadFieldCheck pl r (f, (tys, true)) =
      r.merge (ValidationResult.fail ("payload." ++ f)
        .missingPayloadField) := by
  unfold EventValidator.payloadFieldCheck
  rw [hf]
  rfl

/-- Helper: the ARTIFACT_SEEN payload check on a payload that has a
string `artifact_id`, no `locator` key, and no other type violations
produces exactly the single missing-locator error. -/
theorem validate_payload_artifact_seen (pl : PyFields) (s : String)
    (haid : pl.get "artifact_id" = Option.some (.str s))
    (hloc : pl.get "locator" = Option.none)
    (hkind : payloadFieldOk pl "artifact_kind" [.str])
    (hsize : payloadFieldOk pl "size_bytes" [.int])
    (hmtime : payloadFieldOk pl "mtime" [.int, .float]) :
    EventValidator.validate_payload "ARTIFACT_SEEN" pl =
      { valid := false,
        errors := [{ path := "payload.locator",
                     message := .missingPayloadField }] } := by
  unfold EventValidator.validate_payload
  have hschema :
      ((EventValidator.PAYLOAD_SCHEMAS.find?
          (fun p => p.1 = "ARTIFACT_SEEN")).map Prod.snd).getD [] =
        [("artifact_id", ([PyTy.str], true)),
         ("locator", ([PyTy.str], true)),
         ("artifact_kind", ([PyTy.str], false)),
         ("size_bytes", ([PyTy.int], false)),
         ("mtime", ([PyTy.int, PyTy.float], false))] := by rfl
  rw [hschema]
  rw [List.foldl_cons,
    payloadFieldCheck_present_ok pl _ "artifact_id" [PyTy.str] true
      (PyVal.str s) haid (by rfl)]
  rw [List.foldl_cons,
    payloadFieldCheck_missing_required pl _ _ _ hloc]
  rw [List.foldl_cons, payloadFieldCheck_optional_ok pl _ _ _ hkind]
  rw [List.foldl_cons, payloadFieldCheck_optional_ok pl _ _ _ hsize]
  rw [List.foldl_cons, payloadFieldCheck_optional_ok pl _ _ _ hmtime]
  rw [List.foldl_nil]
  rfl

/-- C8: strict validation of an event with a well-formed envelope,
event type `ARTIFACT_SEEN`, and a payload that has a string
`artifact_id`, no `locator` key and no other type violations among the
declared payload fields, yields `valid = false` with exactly one
error, whose path is `payload.locator`. -/
theorem artifact_seen_missing_locator_single_error (ev : PyFields)
    (henv : EventValidator.validate_envelope ev = ValidationResult.ok)
    (htype : ev.get "event_type" = Option.some (.str "ARTIFACT_SEEN"))
    (hmod : ∃ m, (EventValidator.actorDict ev).get "module" =
      Option.some (.str m))
    (haid : ∃ s, (EventValidator.payloadDict ev).get "artifact_id" =
      Option.some (.str s))
    (hloc : (EventValidator.payloadDict ev).get "locator" = Option.none)
    (hkind : payloadFieldOk (EventValidator.payloadDict ev)
      "artifact_kind" [.str])
    (hsize : payloadFieldOk (EventValidator.payloadDict ev)
      "size_bytes" [.int])
    (hmtime : payloadFieldOk (EventValidator.payloadDict ev)
      "mtime" [.int, .float]) :
    EventValidator.validate ev =
      { valid := false,
        errors := [{ path := "payload.locator",
                     message := .missingPayloadField }] } := by
  obtain ⟨m, hm⟩ := hmod
  obtain ⟨s, hs⟩ := haid
  have hts : EventValidator.eventTypeStr ev = "ARTIFACT_SEEN" := by
    unfold EventValidator.eventTypeStr
    rw [htype]
  have hvt : EventValidator.validate_event_type "ARTIFACT_SEEN" =
      ValidationResult.ok := by rfl
  have hactor : EventValidator.validate_actor (EventValidator.actorDict ev) =
      ValidationResult.ok := by
    unfold EventValidator.validate_actor EventValidator.ACTOR_REQUIRED
    rw [List.foldl_cons, List.foldl_nil, hm]
    rfl
  have hpay := validate_payload_artifact_seen (EventValidator.payloadDict ev)
    s hs hloc hkind hsize hmtime
  unfold EventValidator.validate
  rw [henv, hts]
  simp [hvt, hactor, hpay, ValidationResult.merge, ValidationResult.ok]
  exact ⟨_, List.mem_cons_self _ _⟩

/-- C8 witness: a concrete well-formed ARTIFACT_SEEN event whose
payload lacks `locator` validates to exactly one `payload.locator`
error. -/
theorem artifact_seen_missing_locator_witness :
    let ev : PyFields := PyFields.ofList
      [("event_id", .str "evt-1"),
       ("event_type", .str "ARTIFACT_SEEN"),
       ("ts", .float 17),
       ("actor", .dict (.cons "module" (.str "eyes.fs") .nil)),
       ("payload", .dict (.cons "artifact_id" (.str "a1")
         (.cons "size_bytes" (.int 42) .nil)))]
    EventValidator.validate ev =
      { valid := false,
        errors := [{ path := "payload.locator",
                     message := .missingPayloadField }] } := by
  intro ev
  exact artifact_seen_missing_locator_single_error ev rfl rfl
    ⟨"eyes.fs", rfl⟩ ⟨"a1", rfl⟩ rfl
    (by unfold payloadFieldOk; exact trivial)
    (by unfold payloadFieldOk; right; rfl)
    (by unfold payloadFieldOk; exact trivial)

/-- Helper: a list without the key is left unchanged by the in-place
replacement map. -/
theorem map_upd_of_not_mem (rs : List RelationSnapshot)
    (k : String × String × PyVal) (v : RelationSnapshot)
    (h : ∀ r ∈ rs, relKey r ≠ k) :
    rs.map (fun r => if relKey r = k then v else r) = rs := by
  induction rs with
  | nil => rfl
  | cons r rest ih =>
      simp only [List.map_cons, if_neg (h r (List.mem_cons_self r rest)),
        List.cons.injEq, true_and]
      exact ih (fun r' hr' => h r' (List.mem_cons_of_mem r hr'))

/-- Helper: filtering for a key absent from the list gives nothing. -/
theorem filter_eq_nil_of_not_mem (rs : List RelationSnapshot)
    (k : String × String × PyVal)
    (h : ∀ r ∈ rs, relKey r ≠ k) :
    rs.filter (fun r => decide (relKey r = k)) = [] := by
  induction rs with
  | nil => rfl
  | cons r rest ih =>
      rw [List.filter_cons]
      rw [if_neg (by simpa using h r (List.mem_cons_self r rest))]
      exact ih (fun r' hr' => h r' (List.mem_cons_of_mem r hr'))

/-- Helper: the index dict finds no entry for a key absent from the
relation list. -/
theorem find_enumKeysFrom_none (rs : List RelationSnapshot)
    (k : String × String × PyVal) (n : Nat)
    (h : ∀ r ∈ rs, relKey r ≠ k) :
    (enumKeysFrom n rs).find? (fun p => p.1 = k) = Option.none := by
  induction rs generalizing n with
  | nil => rfl
  | cons r rest ih =>
      unfold enumKeysFrom
      rw [List.find?_cons_of_neg]
      · exact ih (n + 1) (fun r' hr' => h r' (List.mem_cons_of_mem r hr'))
      · simpa using h r (List.mem_cons_self r rest)

/-- Helper: for a present key under key-uniqueness, the index dict
finds the key's position, and setting that position realizes the
in-place replacement map. -/
theorem find_enumKeysFrom_present (rs : List RelationSnapshot)
    (k : String × String × PyVal) (v : RelationSnapshot) (n : Nat)
    (hnd : (rs.map relKey).Nodup)
    (hex : ∃ r ∈ rs, relKey r = k) (hkv : relKey v = k) :
    ∃ i, (enumKeysFrom n rs).find? (fun p => p.1 = k) =
        Option.some (k, n + i) ∧
      rs.set i v = rs.map (fun r => if relKey r = k then v else r) := by
  induction rs generalizing n with
  | nil => simp at hex
  | cons r rest ih =>
      by_cases hr : relKey r = k
      · refine ⟨0, ?_, ?_⟩
        · unfold enumKeysFrom
          rw [List.find?_cons_of_pos _ (by simpa using hr), hr]
          simp
        · simp only [List.set, List.map_cons, if_pos hr, List.cons.injEq,
            true_and]
          have hrest : ∀ r' ∈ rest, relKey r' ≠ k := by
            intro r' hr' hk'
            rw [List.map_cons, List.nodup_cons] at hnd
            exact hnd.1 (hr ▸ hk' ▸ List.mem_map_of_mem relKey hr')
          exact (map_upd_of_not_mem rest k v hrest).symm
      · obtain ⟨i, hfind, hset⟩ := ih (n + 1)
          (by rw [List.map_cons, List.nodup_cons] at hnd; exact hnd.2)
          (by
            rcases hex with ⟨r', hr', hk'⟩
            rcases List.mem_cons.mp hr' with rfl | hmem
            · exact absurd hk' hr
            · exact ⟨r', hmem, hk'⟩)
        refine ⟨i + 1, ?_, ?_⟩
        · unfold enumKeysFrom
          rw [List.find?_cons_of_neg _ (by simpa using hr), hfind]
          congr 2
          omega
        · simp only [List.set, List.map_cons, if_neg hr, List.cons.injEq,
            true_and]
          exact hset

/-- Helper: replacing rows in place under their own key leaves the key
sequence of the relation list unchanged. -/
theorem enumKeysFrom_map_upd (rs : List RelationSnapshot)
    (k : String × String × PyVal) (v : RelationSnapshot) (n : Nat)
    (hkv : relKey v = k) :
    enumKeysFrom n (rs.map (fun r => if relKey r = k then v else r)) =
      enumKeysFrom n rs := by
  induction rs generalizing n with
  | nil => rfl
  | cons r rest ih =>
      by_cases hr : relKey r = k
      · simp only [List.map_cons, if_pos hr]
        unfold enumKeysFrom
        rw [ih (n + 1), hkv, hr]
      · simp only [List.map_cons, if_neg hr]
        unfold enumKeysFrom
        rw [ih (n + 1)]

/-- Helper: appending one row extends the index by that row's key at
the next position. -/
theorem enumKeysFrom_append (rs : List RelationSnapshot)
    (v : RelationSnapshot) (n : Nat) :
    enumKeysFrom n (rs ++ [v]) =
      enumKeysFrom n rs ++ [(relKey v, n + rs.length)] := by
  induction rs generalizing n with
  | nil => simp [enumKeysFrom]
  | cons r rest ih =>
      unfold enumKeysFrom
      rw [List.cons_append]
      show (relKey r, n) :: enumKeysFrom (n + 1) (rest ++ [v]) = _
      rw [ih (n + 1)]
      simp only [List.cons_append, List.length_cons, List.cons.injEq,
        List.append_cancel_left_eq, List.cons.injEq, Prod.mk.injEq, true_and,
        and_true]
      omega

/-- Helper: replacing rows in place under their own key leaves the key
sequence unchanged. -/
theorem map_relKey_upd (rs : List RelationSnapshot) (v : RelationSnapshot)
    (k : String × String × PyVal) (hkv : relKey v = k) :
    (rs.map (fun r => if relKey r = k then v else r)).map relKey
      = rs.map relKey := by
  induction rs with
  | nil => rfl
  | cons r rest ih =>
      by_cases hr : relKey r = k
      · simp only [List.map_cons, if_pos hr, List.cons.injEq]
        exact ⟨by rw [hkv, hr], ih⟩
      · simp only [List.map_cons, if_neg hr, List.cons.injEq, true_and]
        exact ih

/-- Helper: upserting keeps the keys of the relation list without
duplicates. -/
theorem relUpsert_nodup (rs : List RelationSnapshot) (v : RelationSnapshot)
    (hnd : (rs.map relKey).Nodup) :
    ((relUpsert rs v).map relKey).Nodup := by
  unfold relUpsert
  by_cases hmem : rs.any (fun r => decide (relKey r = relKey v)) = true
  · rw [if_pos (by simpa using hmem)]
    rw [map_relKey_upd rs v (relKey v) rfl]
    exact hnd
  · rw [if_neg (by simpa using hmem)]
    rw [List.map_append]
    rw [List.nodup_append]
    refine ⟨hnd, List.nodup_singleton _, ?_⟩
    intro x hx
    simp only [List.mem_map] at hx
    obtain ⟨r, hr, rfl⟩ := hx
    simp only [List.any_eq_true, decide_eq_true_eq, not_exists, not_and] at hmem
    simp only [List.map_singleton, List.mem_singleton]
    exact fun hEq => hmem r hr (by rw [hEq])

/-- Helper: one `RelationProjector.apply` step on a state whose index
is the canonical position dict of its relation list behaves exactly as
the canonical upsert model. -/
theorem relProjector_apply_model (rs : List RelationSnapshot)
    (hnd : (rs.map relKey).Nodup) (e : Event) :
    RelationProjector.apply { relations := rs, index := enumKeysFrom 0 rs } e
      = { relations := relModelStep rs e,
          index := enumKeysFrom 0 (relModelStep rs e) } := by
  cases hv : validRelSnap e with
  | none =>
      have hmodel : relModelStep rs e = rs := by
        unfold relModelStep
        rw [hv]
      rw [hmodel]
      unfold RelationProjector.apply
      unfold validRelSnap at hv
      by_cases ht : e.event_type ≠ EventType.RELATION_PROPOSED
      · rw [if_pos ht]
      · rw [if_neg ht]
        rw [if_neg ht] at hv
        cases hrefs : e.artifact_refs with
        | nil => rfl
        | cons src tl =>
            cases tl with
            | nil => rfl
            | cons tgt tl2 => rw [hrefs] at hv; simp at hv
  | some v =>
      have hmodel : relModelStep rs e = relUpsert rs v := by
        unfold relModelStep
        rw [hv]
      rw [hmodel]
      unfold validRelSnap at hv
      by_cases ht : e.event_type ≠ EventType.RELATION_PROPOSED
      · rw [if_pos ht] at hv; exact absurd hv (by simp)
      · rw [if_neg ht] at hv
        unfold RelationProjector.apply
        rw [if_neg ht]
        cases hrefs : e.artifact_refs with
        | nil => rw [hrefs] at hv; simp at hv
        | cons src tl =>
            cases tl with
            | nil => rw [hrefs] at hv; simp at hv
            | cons tgt tl2 =>
                rw [hrefs] at hv
                simp only [Option.some.injEq] at hv
                subst hv
                dsimp only
                by_cases hmem : rs.any (fun r =>
                    decide (relKey r = (src, tgt,
                      e.payload.getD "relation_type" (.str "unknown")))) = true
                · have hex : ∃ r ∈ rs, relKey r = (src, tgt,
                      e.payload.getD "relation_type" (.str "unknown")) := by
                    simpa using hmem
                  obtain ⟨i, hfind, hset⟩ :=
                    find_enumKeysFrom_present rs
                      (src, tgt, e.payload.getD "relation_type" (.str "unknown"))
                      { source_id := src, target_id := tgt
                        relation_type :=
                          e.payload.getD "relation_type" (.str "unknown")
                        confidence_score :=
                          e.payload.getD "confidence_score" (.float 0)
                        last_proposed := e.timestamp }
                      0 hnd hex rfl
                  rw [hfind]
                  unfold relUpsert
                  rw [if_pos (by simpa using hmem)]
                  rw [enumKeysFrom_map_upd _ _ _ _ rfl]
                  dsimp only [Option.map_some']
                  rw [zero_add, hset]
                  rfl
                · have habs : ∀ r ∈ rs, relKey r ≠ (src, tgt,
                      e.payload.getD "relation_type" (.str "unknown")) := by
                    simpa using hmem
                  rw [find_enumKeysFrom_none rs _ 0 habs]
                  unfold relUpsert
                  rw [if_neg (by simpa using hmem)]
                  rw [enumKeysFrom_append rs _ 0]
                  dsimp only [Option.map_none']
                  rw [zero_add]
                  rfl

/-- Helper: running the relation projector from a canonical state
tracks the canonical upsert model, keys staying duplicate-free. -/
theorem relProjector_run_model (es : List Event) :
    ∀ rs : List RelationSnapshot, (rs.map relKey).Nodup →
      es.foldl RelationProjector.apply
          { relations := rs, index := enumKeysFrom 0 rs }
        = { relations := es.foldl relModelStep rs,
            index := enumKeysFrom 0 (es.foldl relModelStep rs) } ∧
      ((es.foldl relModelStep rs).map relKey).Nodup := by
  induction es with
  | nil => exact fun rs hnd => ⟨rfl, hnd⟩
  | cons e rest ih =>
      intro rs hnd
      have hnd2 : ((relModelStep rs e).map relKey).Nodup := by
        cases hv : validRelSnap e with
        | none => simpa [relModelStep, hv] using hnd
        | some v =>
            simp only [relModelStep, hv]
            exact relUpsert_nodup rs v hnd
      rw [List.foldl_cons, List.foldl_cons, relProjector_apply_model rs hnd e]
      exact ih (relModelStep rs e) hnd2

/-- Helper: after an in-place replacement under key `k`, filtering for
`k` returns exactly the replacement row (keys unique, key present). -/
theorem filter_map_upd_self (rs : List RelationSnapshot)
    (k : String × String × PyVal) (v : RelationSnapshot)
    (hkv : relKey v = k) (hnd : (rs.map relKey).Nodup)
    (hex : ∃ r ∈ rs, relKey r = k) :
    (rs.map (fun r => if relKey r = k then v else r)).filter
      (fun r => decide (relKey r = k)) = [v] := by
  induction rs with
  | nil => simp at hex
  | cons r rest ih =>
      rw [List.map_cons, List.nodup_cons] at hnd
      by_cases hr : relKey r = k
      · simp only [List.map_cons, if_pos hr]
        rw [List.filter_cons, if_pos (by simpa using hkv)]
        have hrest : ∀ r' ∈ rest, relKey r' ≠ k := by
          intro r' hr' hk'
          exact hnd.1 (hr ▸ hk' ▸ List.mem_map_of_mem relKey hr')
        rw [map_upd_of_not_mem rest k v hrest,
          filter_eq_nil_of_not_mem rest k hrest]
      · simp only [List.map_cons, if_neg hr]
        rw [List.filter_cons, if_neg (by simpa using hr)]
        refine ih hnd.2 ?_
        rcases hex with ⟨r', hr', hk'⟩
        rcases List.mem_cons.mp hr' with rfl | hmem
        · exact absurd hk' hr
        · exact ⟨r', hmem, hk'⟩

/-- Helper: an in-place replacement under another key leaves a
key-filter unchanged. -/
theorem filter_map_upd_other (rs : List RelationSnapshot)
    (k k2 : String × String × PyVal) (v : RelationSnapshot)
    (hkv : relKey v = k2) (hne : k ≠ k2) :
    (rs.map (fun r => if relKey r = k2 then v else r)).filter
        (fun r => decide (relKey r = k)) =
      rs.filter (fun r => decide (relKey r = k)) := by
  induction rs with
  | nil => rfl
  | cons r rest ih =>
      by_cases hr : relKey r = k2
      · simp only [List.map_cons, if_pos hr]
        rw [List.filter_cons, if_neg (by simp [hkv]; exact fun h => hne h.symm),
          List.filter_cons, if_neg (by simp [hr]; exact fun h => hne h.symm)]
        exact ih
      · simp only [List.map_cons, if_neg hr]
        rw [List.filter_cons, List.filter_cons]
        cases hd : decide (relKey r = k) with
        | true => rw [ih]
        | false => exact ih

/-- Helper: filtering the upsert result for the upserted row's own key
returns exactly that row. -/
theorem filter_relUpsert_self (rs : List RelationSnapshot)
    (v : RelationSnapshot) (hnd : (rs.map relKey).Nodup) :
    (relUpsert rs v).filter (fun r => decide (relKey r = relKey v)) = [v] := by
  unfold relUpsert
  by_cases hmem : rs.any (fun r => decide (relKey r = relKey v)) = true
  · rw [if_pos (by simpa using hmem)]
    exact filter_map_upd_self rs (relKey v) v rfl hnd (by simpa using hmem)
  · rw [if_neg (by simpa using hmem)]
    rw [List.filter_append, filter_eq_nil_of_not_mem rs _ (by simpa using hmem)]
    simp

/-- Helper: filtering the upsert result for a different key is
unchanged. -/
theorem filter_relUpsert_other (rs : List RelationSnapshot)
    (v : RelationSnapshot) (k : String × String × PyVal)
    (hne : k ≠ relKey v) :
    (relUpsert rs v).filter (fun r => decide (relKey r = k)) =
      rs.filter (fun r => decide (relKey r = k)) := by
  unfold relUpsert
  by_cases hmem : rs.any (fun r => decide (relKey r = relKey v)) = true
  · rw [if_pos (by simpa using hmem)]
    exact filter_map_upd_other rs k (relKey v) v rfl hne
  · rw [if_neg (by simpa using hmem)]
    rw [List.filter_append]
    have hd : decide (relKey v = k) = false := by
      simp only [decide_eq_false_iff_not]
      exact fun h => hne h.symm
    simp [List.filter_singleton, hd]

/-- Helper: a key-filter over the canonical model run returns the
snapshot of the last accepted proposal for that key, or the start
state's rows when the stream never touches the key. -/
theorem filter_foldl_relModelStep (es : List Event) :
    ∀ rs : List RelationSnapshot, (rs.map relKey).Nodup →
      ∀ k, (es.foldl relModelStep rs).filter
          (fun r => decide (relKey r = k)) =
        (match lastRelSnapFor es k with
         | Option.some v => [v]
         | Option.none => rs.filter (fun r => decide (relKey r = k))) := by
  induction es with
  | nil =>
      intro rs _ k
      simp [lastRelSnapFor]
  | cons e rest ih =>
      intro rs hnd k
      have hnd2 : ((relModelStep rs e).map relKey).Nodup := by
        cases hv : validRelSnap e with
        | none => simpa [relModelStep, hv] using hnd
        | some v =>
            simp only [relModelStep, hv]
            exact relUpsert_nodup rs v hnd
      rw [List.foldl_cons, ih (relModelStep rs e) hnd2 k]
      cases hlast : lastRelSnapFor rest k with
      | some w =>
          unfold lastRelSnapFor
          rw [hlast]
      | none =>
          unfold lastRelSnapFor
          rw [hlast]
          cases hv : validRelSnap e with
          | none => simp only [relModelStep, hv]
          | some v =>
              simp only [relModelStep, hv]
              by_cases hk : relKey v = k
              · rw [if_pos hk]
                rw [← hk]
                exact filter_relUpsert_self rs v hnd
              · rw [if_neg hk]
                exact filter_relUpsert_other rs v k
                  (fun h => hk (h.symm))

/-- C2 (amended): the class-based `RelationProjector` does upsert by
the (source, target, type) key: after any event stream, its projected
relation list holds at most one row per key, and when the stream
contains an accepted proposal for the key, exactly one row — carrying
the payload (confidence, timestamp) of the last such proposal. -/
theorem relation_projector_upserts_by_key (es : List Event)
    (k : String × String × PyVal) :
    ((es.foldl RelationProjector.apply {}).relations.countP
        (fun r => decide (relKey r = k)) ≤ 1) ∧
    (∀ v, lastRelSnapFor es k = Option.some v →
      (es.foldl RelationProjector.apply {}).relations.filter
          (fun r => decide (relKey r = k)) = [v]) := by
  have hrun := (relProjector_run_model es [] (by simp)).1
  have hinit : ({} : RelationProjector.State) =
      { relations := ([] : List RelationSnapshot),
        index := enumKeysFrom 0 [] } := rfl
  rw [hinit, hrun]
  have hfilter := filter_foldl_relModelStep es [] (by simp) k
  constructor
  · rw [List.countP_eq_length_filter, hfilter]
    cases lastRelSnapFor es k <;> simp
  · intro v hv
    rw [hfilter, hv]

/-- C2 witness: two proposals for the key ("s", "t", "uses") with
confidences 0.3 then 0.7 leave exactly one projected row, carrying the
later confidence 0.7. -/
theorem relation_projector_upserts_witness :
    let e1 : Event :=
      { metadata :=
          { event_id := "r1"
            timestamp := 1
            event_type := .RELATION_PROPOSED
            source := "thread" }
        payload := .cons "relation_type" (.str "uses")
          (.cons "confidence_score" (.float 0.3) .nil)
        artifact_refs := ["s", "t"] }
    let e2 : Event :=
      { metadata :=
          { event_id := "r2"
            timestamp := 2
            event_type := .RELATION_PROPOSED
            source := "thread" }
        payload := .cons "relation_type" (.str "uses")
          (.cons "confidence_score" (.float 0.7) .nil)
        artifact_refs := ["s", "t"] }
    (([e1, e2].foldl RelationProjector.apply {}).relations.countP
        (fun r => decide (relKey r = ("s", "t", PyVal.str "uses"))) ≤ 1) ∧
    ([e1, e2].foldl RelationProjector.apply {}).relations.filter
        (fun r => decide (relKey r = ("s", "t", PyVal.str "uses"))) =
      [{ source_id := "s", target_id := "t", relation_type := .str "uses",
         confidence_score := .float 0.7, last_proposed := 2 }] := by
  intro e1 e2
  exact ⟨(relation_projector_upserts_by_key [e1, e2]
      ("s", "t", PyVal.str "uses")).1,
    (relation_projector_upserts_by_key [e1, e2]
      ("s", "t", PyVal.str "uses")).2 _ rfl⟩

/-- C2 counterexample: the dict-based `project_relations` reducer does
not upsert — re-proposing the same (source, target, type) key with a
new confidence appends a second row for the key instead of updating
the first in place. -/
theorem project_relations_duplicates_counterexample :
    let j1 : PyFields := PyFields.ofList
      [("event_id", .str "ev1"),
       ("event_type", .str "RELATION_PROPOSED"),
       ("ts", .float 1),
       ("confidence", .float 0.3),
       ("payload", .dict (PyFields.ofList
         [("source_id", .str "s"), ("target_id", .str "t"),
          ("relation_type", .str "uses")]))]
    let j2 : PyFields := PyFields.ofList
      [("event_id", .str "ev2"),
       ("event_type", .str "RELATION_PROPOSED"),
       ("ts", .float 2),
       ("confidence", .float 0.7),
       ("payload", .dict (PyFields.ofList
         [("source_id", .str "s"), ("target_id", .str "t"),
          ("relation_type", .str "uses")]))]
    project_relations [j1, j2] =
      [(.str "s",
        [{ target_id := .str "t", relation_type := .str "uses",
           confidence := .float 0.3, event_id := .str "ev1" },
         { target_id := .str "t", relation_type := .str "uses",
           confidence := .float 0.7, event_id := .str "ev2" }])] ∧
    ((project_relations [j1, j2]).map (fun p => p.2.length)) = [2] := by
  exact ⟨rfl, rfl⟩
